import Mathlib

/-!
Verification development for the excel-creator service (`src/main.py`).

The program exposes two endpoints:
* `crear_excel`  — builds a multi-sheet workbook from a JSON request
  (`ExcelRequest`, a list of `SheetData`), using a fixed layout:
  title merged on row 1, headers on row 2, data from row 3 on.
* `excel_a_json` — parses an uploaded workbook back into the same JSON
  shape, using positional sentinel rules (stop at the first empty cell).

The spreadsheet library (openpyxl) is modelled as a black-box cell store:
a worksheet holds a log of cell writes, per-column widths, merged ranges
and an auto-filter range.  Cell values are the closed scalar sum
{string, number, boolean}; an absent / `None` cell is `Option.none`.
Numbers are modelled as rationals so that values are format-preserving.
-/

/-- A scalar cell value (string, number, or boolean).  JSON `null` and an
empty spreadsheet cell are both represented as `Option.none` at use sites. -/
inductive Value where
  | str (s : String)
  | num (q : Rat)
  | bool (b : Bool)
deriving DecidableEq, Repr

/-- Python truthiness of a scalar value: `""`, `0` and `False` are falsy. -/
def truthyV : Value → Bool
  | Value.str s => !(s == "")
  | Value.num q => !(q == 0)
  | Value.bool b => b

/-- Python `c if c else d` on an optional cell value (`None` is falsy). -/
def pyOrElse (c : Option Value) (d : Value) : Value :=
  match c with
  | some v => if truthyV v then v else d
  | none => d

/-- Python `w if w else 10.0` on an optional column width
(`None` and `0.0` are falsy). -/
def pyWidthOrDefault (w : Option Rat) (d : Rat) : Rat :=
  match w with
  | some x => if x == 0 then d else x
  | none => d

/-- One worksheet of the openpyxl workbook, modelled as a write log.
`cells` holds the most recent write first; a cell that was assigned `None`
is present in the log with value `none` (it still counts for `max_row`,
as in openpyxl). -/
structure Worksheet where
  title : String
  cells : List ((Nat × Nat) × Option Value)
  colWidths : List (Nat × Rat)
  merges : List (Nat × Nat × Nat × Nat)
  autoFilterRef : Option (Nat × Nat × Nat × Nat)
deriving DecidableEq, Repr

/-- `ws.cell(row=r, column=c).value = v` (assignment prepends to the log). -/
def Worksheet.setCell (ws : Worksheet) (r c : Nat) (v : Option Value) : Worksheet :=
  { ws with cells := ((r, c), v) :: ws.cells }

/-- `ws.cell(row=r, column=c).value` — the most recent write, else `None`. -/
def Worksheet.getCell (ws : Worksheet) (r c : Nat) : Option Value :=
  match ws.cells.find? (fun e => e.1 == (r, c)) with
  | some e => e.2
  | none => none

/-- `ws.column_dimensions[letter].width = w`. -/
def Worksheet.setWidth (ws : Worksheet) (c : Nat) (w : Rat) : Worksheet :=
  { ws with colWidths := (c, w) :: ws.colWidths }

/-- `ws.column_dimensions[letter].width` — `None` when never set explicitly
(as the source's own comment documents). -/
def Worksheet.getWidth (ws : Worksheet) (c : Nat) : Option Rat :=
  match ws.colWidths.find? (fun e => e.1 == c) with
  | some e => some e.2
  | none => none

/-- `ws.max_row`: the largest row index that holds a cell object
(1 for an empty sheet, as in openpyxl). -/
def Worksheet.maxRow (ws : Worksheet) : Nat :=
  ws.cells.foldr (fun e m => max e.1.1 m) 1

/-- `ws.max_column`: the largest column index that holds a cell object. -/
def Worksheet.maxCol (ws : Worksheet) : Nat :=
  ws.cells.foldr (fun e m => max e.1.2 m) 1

/-- One entry of the `ExcelRequest`: `hoja` (sheet name), `title`, the
ordered `column_widths` mapping and the `data` records.  Python dicts are
insertion-ordered association lists; a JSON `null` record value is `none`. -/
structure SheetData where
  hoja : String
  title : String
  column_widths : List (String × Rat)
  data : List (List (String × Option Value))
deriving DecidableEq, Repr

/-- An exception raised inside an endpoint's `try` block. -/
inductive PyExc where
  | httpException (status : Nat) (detail : String)
  | valueError (msg : String)
deriving DecidableEq, Repr

/-- Python `str(e)` on such an exception (starlette renders an
`HTTPException` as `"{status_code}: {detail}"`). -/
def strOfExc : PyExc → String
  | PyExc.httpException s d => Nat.repr s ++ ": " ++ d
  | PyExc.valueError m => m

/-- The HTTP error response produced by `raise HTTPException(...)` that
escapes the handler. -/
structure ErrResp where
  status : Nat
  detail : String
deriving DecidableEq, Repr

/-- Message of the `ValueError` openpyxl raises for a cell range whose end
column precedes its start column (the exact library text is irrelevant;
no theorem depends on it). -/
def invalidRangeMsg : String := "0 must be greater than 1"

/-- `ws.merge_cells(start_row=sr, start_column=sc, end_row=er,
end_column=ec)`.  openpyxl rejects an inverted range (in particular
`end_column=0`) with a `ValueError`. -/
def Worksheet.mergeCells (ws : Worksheet) (sr sc er ec : Nat) :
    Except PyExc Worksheet :=
  if ec < sc || er < sr then
    Except.error (PyExc.valueError invalidRangeMsg)
  else
    Except.ok { ws with merges := (sr, sc, er, ec) :: ws.merges }

/-- `sheet.column_widths[header]` — dict lookup by a key taken from the
dict's own key list, so the `KeyError` branch is unreachable (modelled as
a junk value `0`). -/
def lookupWidthD (d : List (String × Rat)) (k : String) : Rat :=
  match d.find? (fun p => p.1 == k) with
  | some p => p.2
  | none => 0

/-- `row_data.get(header, dflt)`. -/
def pyGet (rec : List (String × Option Value)) (k : String)
    (dflt : Option Value) : Option Value :=
  match rec.find? (fun p => p.1 == k) with
  | some p => p.2
  | none => dflt

/-- The header loop of `crear_excel`: for each column label at position
`colNum`, write the label into row 2 and set the column's width from the
`column_widths` dict. -/
def writeHeaders (cols dict : List (String × Rat)) (colNum : Nat)
    (ws : Worksheet) : Worksheet :=
  match cols with
  | [] => ws
  | p :: rest =>
      writeHeaders rest dict (colNum + 1)
        ((ws.setCell 2 colNum (some (Value.str p.1))).setWidth colNum
          (lookupWidthD dict p.1))

/-- The inner data loop: write `row_data.get(header, "")` for each header
into the current row. -/
def writeRow (headers : List String) (rec : List (String × Option Value))
    (rowNum colNum : Nat) (ws : Worksheet) : Worksheet :=
  match headers with
  | [] => ws
  | h :: rest =>
      writeRow rest rec rowNum (colNum + 1)
        (ws.setCell rowNum colNum (pyGet rec h (some (Value.str ""))))

/-- The outer data loop: rows are written from `rowNum` (= 3) on. -/
def writeRows (headers : List String)
    (data : List (List (String × Option Value))) (rowNum : Nat)
    (ws : Worksheet) : Worksheet :=
  match data with
  | [] => ws
  | rec :: rest => writeRows headers rest (rowNum + 1)
      (writeRow headers rec rowNum 1 ws)

/-- Body of `crear_excel` for one sheet after the (fallible) title merge:
title cell, header row with widths, data rows, then the auto-filter range
`A2:{letter(len(headers))}{max_row}`. -/
def encodeSheetCore (s : SheetData) (ws1 : Worksheet) : Worksheet :=
  let ws2 := ws1.setCell 1 1 (some (Value.str s.title))
  let ws3 := writeHeaders s.column_widths s.column_widths 1 ws2
  let ws4 := writeRows (s.column_widths.map Prod.fst) s.data 3 ws3
  { ws4 with
      autoFilterRef := some (2, 1, ws4.maxRow,
        (s.column_widths.map Prod.fst).length) }

/-- Encoding of one sheet: a fresh worksheet named `s.hoja`, then the
title merge `A1:{letter(len(column_widths))}1` (which raises when the
sheet has zero columns), then the rest of the per-sheet body. -/
def encodeSheet (s : SheetData) : Except PyExc Worksheet :=
  match Worksheet.mergeCells ⟨s.hoja, [], [], [], none⟩ 1 1 1
      s.column_widths.length with
  | Except.error e => Except.error e
  | Except.ok ws1 => Except.ok (encodeSheetCore s ws1)

/-- The `for idx, sheet in enumerate(request.hojas)` loop: the first sheet
reuses the workbook's implicit active sheet (renamed), later ones are
created in order; an exception aborts the whole loop. -/
def encodeSheets : List SheetData → Except PyExc (List Worksheet)
  | [] => Except.ok []
  | s :: rest =>
      match encodeSheet s with
      | Except.error e => Except.error e
      | Except.ok ws =>
          match encodeSheets rest with
          | Except.error e => Except.error e
          | Except.ok l => Except.ok (ws :: l)

/-- The `try` block of `crear_excel`: reject an empty sheet list with an
`HTTPException(400)`, else encode every sheet. -/
def crearExcelTry (hojas : List SheetData) : Except PyExc (List Worksheet) :=
  if hojas.isEmpty then
    Except.error (PyExc.httpException 400 "La lista de hojas está vacía.")
  else
    encodeSheets hojas

/-- The `/crear-excel` endpoint.  Any exception raised inside the `try`
block — including the endpoint's own `HTTPException(400)` — is caught by
`except Exception as e` and re-raised as `HTTPException(500, str(e))`.
On success the workbook (its worksheets, in order) is streamed back as
`archivo_multisheets.xlsx`. -/
def crear_excel (hojas : List SheetData) : Except ErrResp (List Worksheet) :=
  match crearExcelTry hojas with
  | Except.ok sheets => Except.ok sheets
  | Except.error e => Except.error (ErrResp.mk 500 (strOfExc e))

/-! ## Decoding (`excel_a_json`) -/

/-- `while True` scan of the header row: read `(2, col)`, stop at the
first `None`.  The loop terminates because a worksheet has finitely many
cells; `fuel` is instantiated with `maxCol + 1`, which the lemmas below
show is never exhausted. -/
def scanHeadersAux (ws : Worksheet) : Nat → Nat → List Value
  | 0, _ => []
  | fuel + 1, col =>
      match ws.getCell 2 col with
      | none => []
      | some v => v :: scanHeadersAux ws fuel (col + 1)

/-- The decoded ordered header list of a worksheet. -/
def sheetHeaders (ws : Worksheet) : List Value :=
  scanHeadersAux ws (ws.maxCol + 1) 1

/-- `acc[k] = v` on a Python dict: overwrite in place when the key exists
(keeping its position), else append. -/
def dictSet {β : Type} : List (Value × β) → Value → β → List (Value × β)
  | [], k, v => [(k, v)]
  | p :: rest, k, v =>
      if p.1 == k then (k, v) :: rest else p :: dictSet rest k v

/-- `for idx, header in enumerate(headers, start=idx0): acc[header] = f idx`. -/
def dictFoldIdx {β : Type} (f : Nat → β) : List Value → Nat →
    List (Value × β) → List (Value × β)
  | [], _, acc => acc
  | h :: rest, idx, acc => dictFoldIdx f rest (idx + 1) (dictSet acc h (f idx))

/-- The decoded `column_widths` dict: each header at 1-based position `i`
maps to `width(i) if width(i) else 10.0`. -/
def sheetWidths (ws : Worksheet) (headers : List Value) :
    List (Value × Rat) :=
  dictFoldIdx (fun idx => pyWidthOrDefault (ws.getWidth idx) 10) headers 1 []

/-- One decoded data record: each header at 1-based position `i` maps to
the (possibly `None`) cell value at `(rowNum, i)`. -/
def buildRecord (ws : Worksheet) (headers : List Value) (rowNum : Nat) :
    List (Value × Option Value) :=
  dictFoldIdx (fun idx => ws.getCell rowNum idx) headers 1 []

/-- `while True` scan of the data region from `rowNum` (= 3): stop at the
first row whose column-1 cell is `None`, else collect the row's record.
`fuel` is instantiated with `maxRow + 1`. -/
def scanDataAux (ws : Worksheet) (headers : List Value) :
    Nat → Nat → List (List (Value × Option Value))
  | 0, _ => []
  | fuel + 1, rowNum =>
      match ws.getCell rowNum 1 with
      | none => []
      | some _ =>
          buildRecord ws headers rowNum ::
            scanDataAux ws headers fuel (rowNum + 1)

/-- One decoded sheet, in the shape of `SheetData` but with decoded cell
values (header labels and the title are arbitrary cell values). -/
structure DecodedSheet where
  hoja : String
  title : Value
  column_widths : List (Value × Rat)
  data : List (List (Value × Option Value))
deriving DecidableEq, Repr

/-- Decoding of one worksheet: name, title from `A1` (with Python
truthiness), sentinel-scanned headers, widths and data records. -/
def sheetToJson (ws : Worksheet) : DecodedSheet :=
  let headers := sheetHeaders ws
  { hoja := ws.title
    title := pyOrElse (ws.getCell 1 1) (Value.str "")
    column_widths := sheetWidths ws headers
    data := scanDataAux ws headers (ws.maxRow + 1) 3 }

/-- The uploaded file: its name and (black-boxing the xlsx byte codec)
its parsed workbook, a list of worksheets in order. -/
structure UploadFile where
  filename : String
  workbook : List Worksheet
deriving DecidableEq, Repr

/-- Python `s.endswith(t)`: `t` is a suffix of `s` (on code points). -/
def pyEndsWith (s t : String) : Bool :=
  t.data.isSuffixOf s.data

/-- The `/excel-a-json` endpoint.  A filename not ending in `.xlsx` or
`.xlsm` raises `HTTPException(400)` before any parsing — but that raise
happens inside the `try` block, so `except Exception` converts it to a
500.  Otherwise every worksheet is decoded in order. -/
def excel_a_json (file : UploadFile) : Except ErrResp (List DecodedSheet) :=
  let tryBody : Except PyExc (List DecodedSheet) :=
    if !(pyEndsWith file.filename ".xlsx" || pyEndsWith file.filename ".xlsm") then
      Except.error
        (PyExc.httpException 400 "El archivo proporcionado no es un Excel válido.")
    else
      Except.ok (file.workbook.map sheetToJson)
  match tryBody with
  | Except.ok r => Except.ok r
  | Except.error e => Except.error (ErrResp.mk 500 (strOfExc e))

/-! ## Derived definitions used by the statements -/

/-- The record's own value at key `k` (`none` both for an absent key and
for a key whose stored value is JSON `null`). -/
def recLookup (rec : List (String × Option Value)) (k : String) :
    Option Value :=
  pyGet rec k none

/-- The JSON structure `excel_a_json` is expected to return for one input
sheet, per the round-trip claim: same name, title and widths; each record
rendered in column order with its own values. -/
def jsonOfSheet (s : SheetData) : DecodedSheet :=
  { hoja := s.hoja
    title := Value.str s.title
    column_widths := s.column_widths.map (fun p => (Value.str p.1, p.2))
    data := s.data.map (fun rec => s.column_widths.map (fun p =>
      (Value.str p.1, recLookup rec p.1))) }

/-- Well-formedness of one row record with respect to the sheet's columns:
its keys are exactly the column labels (a Python dict, hence no duplicate
keys) and every value is a non-null scalar. -/
@[reducible] def recordWF (cols : List (String × Rat))
    (rec : List (String × Option Value)) : Prop :=
  (rec.map Prod.fst).Nodup ∧
  (∀ k ∈ rec.map Prod.fst, k ∈ cols.map Prod.fst) ∧
  (∀ k ∈ cols.map Prod.fst, k ∈ rec.map Prod.fst) ∧
  (∀ p ∈ rec, p.2.isSome = true)

/-- Well-formedness of one sheet descriptor: non-empty columns with
distinct labels and positive widths (the spec's data-model invariants),
and well-formed records. -/
@[reducible] def sheetWF (s : SheetData) : Prop :=
  s.column_widths ≠ [] ∧
  (s.column_widths.map Prod.fst).Nodup ∧
  (∀ p ∈ s.column_widths, 0 < p.2) ∧
  (∀ rec ∈ s.data, recordWF s.column_widths rec)

/-- Well-formedness of a whole encode request. -/
@[reducible] def wellFormed (hojas : List SheetData) : Prop :=
  hojas ≠ [] ∧ ∀ s ∈ hojas, sheetWF s

/-- Normal form of `dictFoldIdx` when no key collides: the keys in order,
paired with `f` of their 1-based positions starting at `idx`. -/
def specListIdx {β : Type} (f : Nat → β) : List Value → Nat →
    List (Value × β)
  | [], _ => []
  | h :: rest, idx => (h, f idx) :: specListIdx f rest (idx + 1)

/-! ## Concrete fixtures for witnesses and counterexamples -/

/-- The spec's §8 concrete scenario as an encode request. -/
def demoSheet : SheetData :=
  ⟨"Reporte1", "Reporte de Ventas",
   [("Producto", 20), ("Cantidad", 15), ("Precio", 15)],
   [[("Producto", some (Value.str "Manzanas")),
     ("Cantidad", some (Value.num 50)),
     ("Precio", some (Value.num (3 / 2)))]]⟩

/-- A sheet descriptor with an empty `column_widths` mapping. -/
def emptyColsSheet : SheetData := ⟨"Hoja1", "T", [], []⟩

/-- A worksheet whose header row has a label, a gap, then another label. -/
def wsHeaderGap : Worksheet :=
  ⟨"S", [((2, 1), some (Value.str "A")), ((2, 3), some (Value.str "C"))],
   [], [], none⟩

/-- A worksheet whose data region has a populated row 3, an empty
column-1 cell on row 4, and a populated row 5. -/
def wsDataGap : Worksheet :=
  ⟨"S",
   [((2, 1), some (Value.str "A")),
    ((3, 1), some (Value.num 1)),
    ((5, 1), some (Value.num 9))], [], [], none⟩

/-- A worksheet whose title cell `A1` holds the (falsy) number `0`. -/
def wsZeroTitle : Worksheet :=
  ⟨"S", [((1, 1), some (Value.num 0))], [], [], none⟩

/-- A worksheet with one header whose column width is explicitly `0`. -/
def wsZeroWidth : Worksheet :=
  ⟨"S", [((2, 1), some (Value.str "A"))], [(1, 0)], [], none⟩

/-- A worksheet with one truthy title, one header and one data row. -/
def wsSmall : Worksheet :=
  ⟨"S", [((1, 1), some (Value.str "Hello")),
         ((2, 1), some (Value.str "A")),
         ((3, 1), some (Value.num 1))], [], [], none⟩

/-- The decoding of `wsSmall` (used to instantiate record-totality). -/
def wsSmallDecoded : DecodedSheet :=
  ⟨"S", Value.str "Hello", [(Value.str "A", 10)],
   [[(Value.str "A", some (Value.num 1))]]⟩

/-- The single decoded record of `wsSmall`. -/
def wsSmallRec : List (Value × Option Value) :=
  [(Value.str "A", some (Value.num 1))]

/-! ## Named stages of the per-sheet encoding (definitionally equal to
`encodeSheetCore`, introduced for the proofs) -/

/-- The fresh worksheet for sheet `s` after the successful title merge. -/
def mergedInit (s : SheetData) : Worksheet :=
  ⟨s.hoja, [], [], [(1, 1, 1, s.column_widths.length)], none⟩

/-- After writing the title value into `A1`. -/
def stage2 (s : SheetData) : Worksheet :=
  (mergedInit s).setCell 1 1 (some (Value.str s.title))

/-- After the header loop. -/
def stage3 (s : SheetData) : Worksheet :=
  writeHeaders s.column_widths s.column_widths 1 (stage2 s)

/-- After the data loop. -/
def stage4 (s : SheetData) : Worksheet :=
  writeRows (s.column_widths.map Prod.fst) s.data 3 (stage3 s)

/-- The fully encoded worksheet of sheet `s`. -/
def encWs (s : SheetData) : Worksheet :=
  { stage4 s with
      autoFilterRef := some (2, 1, (stage4 s).maxRow,
        (s.column_widths.map Prod.fst).length) }

/-! ## Basic lemmas about the worksheet operations -/

theorem getCell_setCell_self (ws : Worksheet) (r c : Nat) (v : Option Value) :
    (ws.setCell r c v).getCell r c = v := by
  simp [Worksheet.setCell, Worksheet.getCell, List.find?]

theorem getCell_setCell_ne (ws : Worksheet) (r c r' c' : Nat)
    (v : Option Value) (h : (r', c') ≠ (r, c)) :
    (ws.setCell r c v).getCell r' c' = ws.getCell r' c' := by
  have hb : (((r, c), v).1 == (r', c')) = false := by
    simp [Prod.ext_iff] at h ⊢
    omega
  simp [Worksheet.setCell, Worksheet.getCell, List.find?, hb]

theorem title_setCell (ws : Worksheet) (r c : Nat) (v : Option Value) :
    (ws.setCell r c v).title = ws.title := rfl

theorem colWidths_setCell (ws : Worksheet) (r c : Nat) (v : Option Value) :
    (ws.setCell r c v).colWidths = ws.colWidths := rfl

theorem getWidth_setCell (ws : Worksheet) (r c : Nat) (v : Option Value)
    (c' : Nat) : (ws.setCell r c v).getWidth c' = ws.getWidth c' := rfl

theorem maxRow_setCell (ws : Worksheet) (r c : Nat) (v : Option Value) :
    (ws.setCell r c v).maxRow = max r ws.maxRow := rfl

theorem maxCol_setCell (ws : Worksheet) (r c : Nat) (v : Option Value) :
    (ws.setCell r c v).maxCol = max c ws.maxCol := rfl

theorem cells_setWidth (ws : Worksheet) (c : Nat) (w : Rat) :
    (ws.setWidth c w).cells = ws.cells := rfl

theorem getCell_setWidth (ws : Worksheet) (c : Nat) (w : Rat) (r' c' : Nat) :
    (ws.setWidth c w).getCell r' c' = ws.getCell r' c' := rfl

theorem maxRow_setWidth (ws : Worksheet) (c : Nat) (w : Rat) :
    (ws.setWidth c w).maxRow = ws.maxRow := rfl

theorem maxCol_setWidth (ws : Worksheet) (c : Nat) (w : Rat) :
    (ws.setWidth c w).maxCol = ws.maxCol := rfl

theorem title_setWidth (ws : Worksheet) (c : Nat) (w : Rat) :
    (ws.setWidth c w).title = ws.title := rfl

theorem getWidth_setWidth_self (ws : Worksheet) (c : Nat) (w : Rat) :
    (ws.setWidth c w).getWidth c = some w := by
  simp [Worksheet.setWidth, Worksheet.getWidth, List.find?]

theorem getWidth_setWidth_ne (ws : Worksheet) (c : Nat) (w : Rat)
    (c' : Nat) (h : c' ≠ c) :
    (ws.setWidth c w).getWidth c' = ws.getWidth c' := by
  have hb : (((c, w)).1 == c') = false := by
    simp
    omega
  simp [Worksheet.setWidth, Worksheet.getWidth, List.find?, hb]

theorem col_le_foldr_max (l : List ((Nat × Nat) × Option Value))
    (e : (Nat × Nat) × Option Value) (he : e ∈ l) (b : Nat) :
    e.1.2 ≤ l.foldr (fun e m => max e.1.2 m) b := by
  induction l with
  | nil => cases he
  | cons hd tl ih =>
      rcases List.mem_cons.mp he with h | h
      · subst h; exact Nat.le_max_left _ _
      · exact le_trans (ih h) (Nat.le_max_right _ _)

theorem row_le_foldr_max (l : List ((Nat × Nat) × Option Value))
    (e : (Nat × Nat) × Option Value) (he : e ∈ l) (b : Nat) :
    e.1.1 ≤ l.foldr (fun e m => max e.1.1 m) b := by
  induction l with
  | nil => cases he
  | cons hd tl ih =>
      rcases List.mem_cons.mp he with h | h
      · subst h; exact Nat.le_max_left _ _
      · exact le_trans (ih h) (Nat.le_max_right _ _)

theorem le_maxCol_of_isSome (ws : Worksheet) (r c : Nat)
    (h : (ws.getCell r c).isSome = true) : c ≤ ws.maxCol := by
  unfold Worksheet.getCell at h
  cases hfind : ws.cells.find? (fun e => e.1 == (r, c)) with
  | none => rw [hfind] at h; simp at h
  | some e =>
      have hmem := List.mem_of_find?_eq_some hfind
      have hp := List.find?_some hfind
      have he : e.1 = (r, c) := by simpa using hp
      have := col_le_foldr_max ws.cells e hmem 1
      rw [he] at this
      exact this

theorem le_maxRow_of_isSome (ws : Worksheet) (r c : Nat)
    (h : (ws.getCell r c).isSome = true) : r ≤ ws.maxRow := by
  unfold Worksheet.getCell at h
  cases hfind : ws.cells.find? (fun e => e.1 == (r, c)) with
  | none => rw [hfind] at h; simp at h
  | some e =>
      have hmem := List.mem_of_find?_eq_some hfind
      have hp := List.find?_some hfind
      have he : e.1 = (r, c) := by simpa using hp
      have := row_le_foldr_max ws.cells e hmem 1
      rw [he] at this
      exact this

/-! ## Lemmas about the encoder's loops -/

theorem writeRow_title (hs : List String) (rec : List (String × Option Value))
    (rowNum colNum : Nat) (ws : Worksheet) :
    (writeRow hs rec rowNum colNum ws).title = ws.title := by
  induction hs generalizing colNum ws with
  | nil => rfl
  | cons h t ih => simp [writeRow, ih, title_setCell]

theorem writeRow_colWidths (hs : List String)
    (rec : List (String × Option Value)) (rowNum colNum : Nat)
    (ws : Worksheet) :
    (writeRow hs rec rowNum colNum ws).colWidths = ws.colWidths := by
  induction hs generalizing colNum ws with
  | nil => rfl
  | cons h t ih => simp [writeRow, ih, colWidths_setCell]

theorem writeRow_getWidth (hs : List String)
    (rec : List (String × Option Value)) (rowNum colNum : Nat)
    (ws : Worksheet) (c : Nat) :
    (writeRow hs rec rowNum colNum ws).getWidth c = ws.getWidth c := by
  unfold Worksheet.getWidth
  rw [writeRow_colWidths]

theorem writeRow_getCell_ne_row (hs : List String)
    (rec : List (String × Option Value)) (rowNum colNum : Nat)
    (ws : Worksheet) (r c : Nat) (h : r ≠ rowNum) :
    (writeRow hs rec rowNum colNum ws).getCell r c = ws.getCell r c := by
  induction hs generalizing colNum ws with
  | nil => rfl
  | cons hd t ih =>
      rw [writeRow, ih]
      exact getCell_setCell_ne _ _ _ _ _ _ (by simp [Prod.ext_iff]; omega)

theorem writeRow_getCell_lt_col (hs : List String)
    (rec : List (String × Option Value)) (rowNum colNum : Nat)
    (ws : Worksheet) (r c : Nat) (h : c < colNum) :
    (writeRow hs rec rowNum colNum ws).getCell r c = ws.getCell r c := by
  induction hs generalizing colNum ws with
  | nil => rfl
  | cons hd t ih =>
      rw [writeRow, ih _ _ (by omega)]
      exact getCell_setCell_ne _ _ _ _ _ _ (by simp [Prod.ext_iff]; omega)

theorem writeRow_getCell_at (hs : List String)
    (rec : List (String × Option Value)) (rowNum colNum : Nat)
    (ws : Worksheet) (i : Nat) (hd : String) (hi : hs[i]? = some hd) :
    (writeRow hs rec rowNum colNum ws).getCell rowNum (colNum + i) =
      pyGet rec hd (some (Value.str "")) := by
  induction hs generalizing colNum ws i with
  | nil => simp at hi
  | cons h0 t ih =>
      cases i with
      | zero =>
          simp at hi
          subst hi
          rw [writeRow, writeRow_getCell_lt_col _ _ _ _ _ _ _ (by omega)]
          simpa using getCell_setCell_self ws rowNum colNum _
      | succ j =>
          simp at hi
          rw [writeRow]
          have := ih (colNum + 1)
            (ws.setCell rowNum colNum (pyGet rec h0 (some (Value.str "")))) j hi
          simpa [Nat.add_comm, Nat.add_assoc, Nat.add_left_comm] using this

theorem writeRow_maxRow (hs : List String)
    (rec : List (String × Option Value)) (rowNum colNum : Nat)
    (ws : Worksheet) (hne : hs ≠ []) :
    (writeRow hs rec rowNum colNum ws).maxRow = max rowNum ws.maxRow := by
  induction hs generalizing colNum ws with
  | nil => cases hne rfl
  | cons h0 t ih =>
      rw [writeRow]
      cases t with
      | nil => simp [writeRow, maxRow_setCell]
      | cons t0 ts =>
          rw [ih _ _ (by simp), maxRow_setCell]
          omega

theorem writeRows_title (hs : List String)
    (data : List (List (String × Option Value))) (rowNum : Nat)
    (ws : Worksheet) :
    (writeRows hs data rowNum ws).title = ws.title := by
  induction data generalizing rowNum ws with
  | nil => rfl
  | cons rec rest ih => rw [writeRows, ih, writeRow_title]

theorem writeRows_colWidths (hs : List String)
    (data : List (List (String × Option Value))) (rowNum : Nat)
    (ws : Worksheet) :
    (writeRows hs data rowNum ws).colWidths = ws.colWidths := by
  induction data generalizing rowNum ws with
  | nil => rfl
  | cons rec rest ih => rw [writeRows, ih, writeRow_colWidths]

theorem writeRows_getWidth (hs : List String)
    (data : List (List (String × Option Value))) (rowNum : Nat)
    (ws : Worksheet) (c : Nat) :
    (writeRows hs data rowNum ws).getWidth c = ws.getWidth c := by
  unfold Worksheet.getWidth
  rw [writeRows_colWidths]

theorem writeRows_getCell_out (hs : List String)
    (data : List (List (String × Option Value))) (rowNum : Nat)
    (ws : Worksheet) (r c : Nat)
    (h : r < rowNum ∨ rowNum + data.length ≤ r) :
    (writeRows hs data rowNum ws).getCell r c = ws.getCell r c := by
  induction data generalizing rowNum ws with
  | nil => rfl
  | cons rec rest ih =>
      rw [writeRows, ih _ _ (by simp at h; omega)]
      exact writeRow_getCell_ne_row _ _ _ _ _ _ _ (by simp at h; omega)

theorem writeRows_getCell_at (hs : List String)
    (data : List (List (String × Option Value))) (rowNum : Nat)
    (ws : Worksheet) (r0 : Nat) (rec : List (String × Option Value))
    (hr : data[r0]? = some rec) (i : Nat) (hd : String)
    (hi : hs[i]? = some hd) :
    (writeRows hs data rowNum ws).getCell (rowNum + r0) (1 + i) =
      pyGet rec hd (some (Value.str "")) := by
  induction data generalizing rowNum ws r0 with
  | nil => simp at hr
  | cons rec0 rest ih =>
      cases r0 with
      | zero =>
          simp at hr
          subst hr
          rw [writeRows,
            writeRows_getCell_out _ _ _ _ _ _ (Or.inl (by omega))]
          simpa using writeRow_getCell_at hs rec0 rowNum 1 ws i hd hi
      | succ j =>
          simp at hr
          rw [writeRows]
          have := ih (rowNum + 1) (writeRow hs rec0 rowNum 1 ws) j hr
          simpa [Nat.add_comm, Nat.add_assoc, Nat.add_left_comm] using this

theorem writeRows_maxRow (hs : List String)
    (rec : List (String × Option Value))
    (rest : List (List (String × Option Value))) (rowNum : Nat)
    (ws : Worksheet) (hne : hs ≠ []) :
    (writeRows hs (rec :: rest) rowNum ws).maxRow =
      max (rowNum + rest.length) ws.maxRow := by
  induction rest generalizing rec rowNum ws with
  | nil =>
      rw [writeRows, writeRows, writeRow_maxRow _ _ _ _ _ hne]
      simp
  | cons rec1 rest1 ih =>
      rw [writeRows]
      have := ih rec1 (rowNum + 1) (writeRow hs rec rowNum 1 ws)
      rw [this, writeRow_maxRow _ _ _ _ _ hne]
      simp
      omega

theorem writeHeaders_title (cols dict : List (String × Rat)) (colNum : Nat)
    (ws : Worksheet) :
    (writeHeaders cols dict colNum ws).title = ws.title := by
  induction cols generalizing colNum ws with
  | nil => rfl
  | cons p rest ih => rw [writeHeaders, ih]; rfl

theorem writeHeaders_getCell_ne_row (cols dict : List (String × Rat))
    (colNum : Nat) (ws : Worksheet) (r c : Nat) (h : r ≠ 2) :
    (writeHeaders cols dict colNum ws).getCell r c = ws.getCell r c := by
  induction cols generalizing colNum ws with
  | nil => rfl
  | cons p rest ih =>
      rw [writeHeaders, ih, getCell_setWidth]
      exact getCell_setCell_ne _ _ _ _ _ _ (by simp [Prod.ext_iff]; omega)

theorem writeHeaders_getCell_lt_col (cols dict : List (String × Rat))
    (colNum : Nat) (ws : Worksheet) (r c : Nat) (h : c < colNum) :
    (writeHeaders cols dict colNum ws).getCell r c = ws.getCell r c := by
  induction cols generalizing colNum ws with
  | nil => rfl
  | cons p rest ih =>
      rw [writeHeaders, ih _ _ (by omega), getCell_setWidth]
      exact getCell_setCell_ne _ _ _ _ _ _ (by simp [Prod.ext_iff]; omega)

theorem writeHeaders_getCell_ge (cols dict : List (String × Rat))
    (colNum : Nat) (ws : Worksheet) (r c : Nat)
    (h : colNum + cols.length ≤ c) :
    (writeHeaders cols dict colNum ws).getCell r c = ws.getCell r c := by
  induction cols generalizing colNum ws with
  | nil => rfl
  | cons p rest ih =>
      rw [writeHeaders, ih _ _ (by simp at h ⊢; omega), getCell_setWidth]
      exact getCell_setCell_ne _ _ _ _ _ _
        (by simp [Prod.ext_iff]; simp at h; omega)

theorem writeHeaders_getCell_at (cols dict : List (String × Rat))
    (colNum : Nat) (ws : Worksheet) (i : Nat) (p : String × Rat)
    (hi : cols[i]? = some p) :
    (writeHeaders cols dict colNum ws).getCell 2 (colNum + i) =
      some (Value.str p.1) := by
  induction cols generalizing colNum ws i with
  | nil => simp at hi
  | cons p0 rest ih =>
      cases i with
      | zero =>
          simp at hi
          subst hi
          rw [writeHeaders, writeHeaders_getCell_lt_col _ _ _ _ _ _ (by omega),
            getCell_setWidth]
          simpa using getCell_setCell_self ws 2 colNum _
      | succ j =>
          simp at hi
          rw [writeHeaders]
          have := ih (colNum + 1)
            ((ws.setCell 2 colNum (some (Value.str p0.1))).setWidth colNum
              (lookupWidthD dict p0.1)) j hi
          simpa [Nat.add_comm, Nat.add_assoc, Nat.add_left_comm] using this

theorem writeHeaders_getWidth_lt (cols dict : List (String × Rat))
    (colNum : Nat) (ws : Worksheet) (c : Nat) (h : c < colNum) :
    (writeHeaders cols dict colNum ws).getWidth c = ws.getWidth c := by
  induction cols generalizing colNum ws with
  | nil => rfl
  | cons p rest ih =>
      rw [writeHeaders, ih _ _ (by omega),
        getWidth_setWidth_ne _ _ _ _ (by omega), getWidth_setCell]

theorem writeHeaders_getWidth_at (cols dict : List (String × Rat))
    (colNum : Nat) (ws : Worksheet) (i : Nat) (p : String × Rat)
    (hi : cols[i]? = some p) :
    (writeHeaders cols dict colNum ws).getWidth (colNum + i) =
      some (lookupWidthD dict p.1) := by
  induction cols generalizing colNum ws i with
  | nil => simp at hi
  | cons p0 rest ih =>
      cases i with
      | zero =>
          simp at hi
          subst hi
          rw [writeHeaders, writeHeaders_getWidth_lt _ _ _ _ _ (by omega)]
          simpa using getWidth_setWidth_self _ colNum _
      | succ j =>
          simp at hi
          rw [writeHeaders]
          have := ih (colNum + 1)
            ((ws.setCell 2 colNum (some (Value.str p0.1))).setWidth colNum
              (lookupWidthD dict p0.1)) j hi
          simpa [Nat.add_comm, Nat.add_assoc, Nat.add_left_comm] using this

theorem writeHeaders_maxRow (cols dict : List (String × Rat))
    (colNum : Nat) (ws : Worksheet) (hne : cols ≠ []) :
    (writeHeaders cols dict colNum ws).maxRow = max 2 ws.maxRow := by
  induction cols generalizing colNum ws with
  | nil => cases hne rfl
  | cons p rest ih =>
      rw [writeHeaders]
      cases rest with
      | nil => simp [writeHeaders, maxRow_setWidth, maxRow_setCell]
      | cons q qs =>
          rw [ih _ _ (by simp), maxRow_setWidth, maxRow_setCell]
          omega

/-! ## Lemmas about the decoder's scans and dict construction -/

theorem scanHeadersAux_spec (ws : Worksheet) (k : Nat) (fuel start : Nat)
    (h1 : start ≤ k) (h2 : k < start + fuel)
    (hbefore : ∀ c, start ≤ c → c < k → (ws.getCell 2 c).isSome = true)
    (hgap : ws.getCell 2 k = none) :
    (scanHeadersAux ws fuel start).length = k - start ∧
    ∀ i, i < k - start →
      (scanHeadersAux ws fuel start)[i]? = ws.getCell 2 (start + i) := by
  induction fuel generalizing start with
  | zero => omega
  | succ fuel ih =>
      by_cases hsk : start = k
      · subst hsk
        rw [scanHeadersAux, hgap]
        constructor
        · simp
        · intro i hi; omega
      · have hlt : start < k := lt_of_le_of_ne h1 hsk
        have hsome := hbefore start (le_refl _) hlt
        obtain ⟨v, hv⟩ := Option.isSome_iff_exists.mp hsome
        rw [scanHeadersAux, hv]
        obtain ⟨ihlen, ihget⟩ := ih (start + 1) (by omega) (by omega)
          (fun c hc1 hc2 => hbefore c (by omega) hc2)
        constructor
        · simp [ihlen]; omega
        · intro i hi
          cases i with
          | zero => simpa using hv.symm
          | succ j =>
              have := ihget j (by omega)
              simpa [Nat.add_comm, Nat.add_assoc, Nat.add_left_comm]
                using this

theorem scanDataAux_spec (ws : Worksheet) (headers : List Value) (k : Nat)
    (fuel start : Nat) (h1 : start ≤ k) (h2 : k < start + fuel)
    (hbefore : ∀ r, start ≤ r → r < k → (ws.getCell r 1).isSome = true)
    (hgap : ws.getCell k 1 = none) :
    (scanDataAux ws headers fuel start).length = k - start ∧
    ∀ i, i < k - start →
      (scanDataAux ws headers fuel start)[i]? =
        some (buildRecord ws headers (start + i)) := by
  induction fuel generalizing start with
  | zero => omega
  | succ fuel ih =>
      by_cases hsk : start = k
      · subst hsk
        rw [scanDataAux, hgap]
        constructor
        · simp
        · intro i hi; omega
      · have hlt : start < k := lt_of_le_of_ne h1 hsk
        have hsome := hbefore start (le_refl _) hlt
        obtain ⟨v, hv⟩ := Option.isSome_iff_exists.mp hsome
        rw [scanDataAux, hv]
        obtain ⟨ihlen, ihget⟩ := ih (start + 1) (by omega) (by omega)
          (fun r hr1 hr2 => hbefore r (by omega) hr2)
        constructor
        · simp [ihlen]; omega
        · intro i hi
          cases i with
          | zero => simp
          | succ j =>
              have := ihget j (by omega)
              simpa [Nat.add_comm, Nat.add_assoc, Nat.add_left_comm]
                using this

theorem dictSet_keys_mem {β : Type} (d : List (Value × β)) (k k' : Value)
    (v : β) :
    k' ∈ (dictSet d k v).map Prod.fst ↔
      k' ∈ d.map Prod.fst ∨ k' = k := by
  induction d with
  | nil => simp [dictSet]
  | cons p rest ih =>
      rw [dictSet]
      by_cases hp : p.1 = k
      · simp [hp]
        tauto
      · simp [hp, ih]
        tauto

theorem dictSet_not_mem_append {β : Type} (d : List (Value × β))
    (k : Value) (v : β) (h : k ∉ d.map Prod.fst) :
    dictSet d k v = d ++ [(k, v)] := by
  induction d with
  | nil => rfl
  | cons p rest ih =>
      have h1 : k ≠ p.1 := by
        intro hc
        exact h (by simp [hc])
      have h2 : k ∉ rest.map Prod.fst := by
        intro hc
        exact h (by simp [hc])
      rw [dictSet, if_neg (by simp; exact fun hc => h1 hc.symm), ih h2]
      simp

theorem dictFoldIdx_keys_mem {β : Type} (f : Nat → β) (hs : List Value)
    (idx : Nat) (acc : List (Value × β)) (k : Value) :
    k ∈ (dictFoldIdx f hs idx acc).map Prod.fst ↔
      k ∈ acc.map Prod.fst ∨ k ∈ hs := by
  induction hs generalizing idx acc with
  | nil => simp [dictFoldIdx]
  | cons h t ih =>
      rw [dictFoldIdx, ih]
      rw [dictSet_keys_mem]
      simp
      tauto

theorem specListIdx_keys {β : Type} (f : Nat → β) (hs : List Value)
    (idx : Nat) : (specListIdx f hs idx).map Prod.fst = hs := by
  induction hs generalizing idx with
  | nil => rfl
  | cons h t ih => simp [specListIdx, ih]

theorem dictFoldIdx_nodup_eq {β : Type} (f : Nat → β) (hs : List Value)
    (idx : Nat) (acc : List (Value × β)) (hnd : hs.Nodup)
    (hdisj : ∀ h ∈ hs, h ∉ acc.map Prod.fst) :
    dictFoldIdx f hs idx acc = acc ++ specListIdx f hs idx := by
  induction hs generalizing idx acc with
  | nil => simp [dictFoldIdx, specListIdx]
  | cons h t ih =>
      rw [List.nodup_cons] at hnd
      have hdisj' : ∀ h' ∈ t, h' ∉ (acc ++ [(h, f idx)]).map Prod.fst := by
        intro h' hh'
        rw [List.map_append, List.mem_append]
        rintro (hc | hc)
        · exact hdisj h' (List.mem_cons_of_mem _ hh') hc
        · simp at hc
          subst hc
          exact hnd.1 hh'
      rw [dictFoldIdx,
        dictSet_not_mem_append acc h (f idx) (hdisj h (List.mem_cons_self _ _)),
        ih (idx + 1) (acc ++ [(h, f idx)]) hnd.2 hdisj', specListIdx]
      simp

theorem specListIdx_length {β : Type} (f : Nat → β) (hs : List Value)
    (idx : Nat) : (specListIdx f hs idx).length = hs.length := by
  induction hs generalizing idx with
  | nil => rfl
  | cons h t ih => simp [specListIdx, ih]

theorem specListIdx_getElem? {β : Type} (f : Nat → β) (hs : List Value)
    (idx i : Nat) (h : Value) (hi : hs[i]? = some h) :
    (specListIdx f hs idx)[i]? = some (h, f (idx + i)) := by
  induction hs generalizing idx i with
  | nil => simp at hi
  | cons h0 t ih =>
      cases i with
      | zero =>
          simp at hi
          subst hi
          simp [specListIdx]
      | succ j =>
          simp at hi
          rw [specListIdx]
          have := ih (idx + 1) j hi
          simpa [Nat.add_comm, Nat.add_assoc, Nat.add_left_comm] using this

theorem specListIdx_find? {β : Type} (f : Nat → β) (hs : List Value)
    (idx i : Nat) (h : Value) (hnd : hs.Nodup) (hi : hs[i]? = some h) :
    (specListIdx f hs idx).find? (fun p => p.1 == h) =
      some (h, f (idx + i)) := by
  induction hs generalizing idx i with
  | nil => simp at hi
  | cons h0 t ih =>
      rw [List.nodup_cons] at hnd
      cases i with
      | zero =>
          simp at hi
          subst hi
          simp [specListIdx, List.find?]
      | succ j =>
          simp at hi
          have hmem : h ∈ t := List.getElem?_mem hi
          have hne : (h0 == h) = false := by
            simp
            intro hcon
            subst hcon
            exact hnd.1 hmem
          rw [specListIdx, List.find?]
          simp only [hne]
          have := ih (idx + 1) j hnd.2 hi
          simpa [Nat.add_comm, Nat.add_assoc, Nat.add_left_comm] using this

/-! ## Characterization of the encoded worksheet -/

theorem encodeSheetCore_eq_encWs (s : SheetData) :
    encodeSheetCore s (mergedInit s) = encWs s := rfl

theorem encodeSheet_ok (s : SheetData) (h : s.column_widths ≠ []) :
    encodeSheet s = Except.ok (encWs s) := by
  have hlen : 1 ≤ s.column_widths.length := by
    cases hc : s.column_widths with
    | nil => exact absurd hc h
    | cons a t => simp [hc]
  have hcond : ¬((s.column_widths.length < 1 || decide (1 < 1)) = true) := by
    simp only [Bool.or_eq_true, decide_eq_true_eq, not_or]
    exact ⟨by omega, by omega⟩
  rw [encodeSheet, Worksheet.mergeCells, if_neg hcond]
  rfl

theorem encodeSheet_emptyCols (s : SheetData) (h : s.column_widths = []) :
    encodeSheet s = Except.error (PyExc.valueError invalidRangeMsg) := by
  rw [encodeSheet, Worksheet.mergeCells, if_pos (by simp [h])]

theorem encWs_getCell (s : SheetData) (r c : Nat) :
    (encWs s).getCell r c = (stage4 s).getCell r c := rfl

theorem encWs_getWidth (s : SheetData) (c : Nat) :
    (encWs s).getWidth c = (stage4 s).getWidth c := rfl

theorem encWs_maxRow (s : SheetData) :
    (encWs s).maxRow = (stage4 s).maxRow := rfl

theorem encWs_maxCol (s : SheetData) :
    (encWs s).maxCol = (stage4 s).maxCol := rfl

theorem encWs_name (s : SheetData) : (encWs s).title = s.hoja := by
  show (stage4 s).title = s.hoja
  rw [stage4, writeRows_title, stage3, writeHeaders_title, stage2,
    title_setCell]
  rfl

theorem mergedInit_getCell (s : SheetData) (r c : Nat) :
    (mergedInit s).getCell r c = none := rfl

theorem encWs_titleCell (s : SheetData) :
    (encWs s).getCell 1 1 = some (Value.str s.title) := by
  rw [encWs_getCell, stage4,
    writeRows_getCell_out _ _ _ _ _ _ (Or.inl (by omega)), stage3,
    writeHeaders_getCell_ne_row _ _ _ _ _ _ (by omega), stage2]
  exact getCell_setCell_self _ _ _ _

theorem encWs_header_at (s : SheetData) (i : Nat) (p : String × Rat)
    (hi : s.column_widths[i]? = some p) :
    (encWs s).getCell 2 (1 + i) = some (Value.str p.1) := by
  rw [encWs_getCell, stage4,
    writeRows_getCell_out _ _ _ _ _ _ (Or.inl (by omega)), stage3]
  exact writeHeaders_getCell_at _ _ _ _ _ _ hi

theorem encWs_header_gap (s : SheetData) (c : Nat)
    (hc : 1 + s.column_widths.length ≤ c) :
    (encWs s).getCell 2 c = none := by
  rw [encWs_getCell, stage4,
    writeRows_getCell_out _ _ _ _ _ _ (Or.inl (by omega)), stage3,
    writeHeaders_getCell_ge _ _ _ _ _ _ (by omega), stage2,
    getCell_setCell_ne _ _ _ _ _ _ (by simp [Prod.ext_iff]),
    mergedInit_getCell]

theorem encWs_width_at (s : SheetData) (i : Nat) (p : String × Rat)
    (hi : s.column_widths[i]? = some p) :
    (encWs s).getWidth (1 + i) = some (lookupWidthD s.column_widths p.1) := by
  rw [encWs_getWidth, stage4, writeRows_getWidth, stage3]
  exact writeHeaders_getWidth_at _ _ _ _ _ _ hi

theorem encWs_data_at (s : SheetData) (r : Nat)
    (rec : List (String × Option Value)) (hr : s.data[r]? = some rec)
    (i : Nat) (hd : String) (hi : (s.column_widths.map Prod.fst)[i]? = some hd) :
    (encWs s).getCell (3 + r) (1 + i) = pyGet rec hd (some (Value.str "")) := by
  rw [encWs_getCell, stage4]
  exact writeRows_getCell_at _ _ _ _ _ _ hr _ _ hi

theorem encWs_data_gap (s : SheetData) (r : Nat)
    (hr : 3 + s.data.length ≤ r) :
    (encWs s).getCell r 1 = none := by
  rw [encWs_getCell, stage4,
    writeRows_getCell_out _ _ _ _ _ _ (Or.inr (by omega)), stage3,
    writeHeaders_getCell_ne_row _ _ _ _ _ _ (by omega), stage2,
    getCell_setCell_ne _ _ _ _ _ _ (by simp [Prod.ext_iff]; omega),
    mergedInit_getCell]

theorem stage3_maxRow (s : SheetData) (h : s.column_widths ≠ []) :
    (stage3 s).maxRow = 2 := by
  rw [stage3, writeHeaders_maxRow _ _ _ _ h, stage2, maxRow_setCell]
  rfl

theorem encWs_maxRow_eq (s : SheetData) (h : s.column_widths ≠ []) :
    (encWs s).maxRow = 2 + s.data.length := by
  rw [encWs_maxRow, stage4]
  cases hd : s.data with
  | nil =>
      show (stage3 s).maxRow = 2 + 0
      rw [stage3_maxRow s h]
  | cons rec rest =>
      rw [writeRows_maxRow _ _ _ _ _ (by simpa using h), stage3_maxRow s h]
      simp
      omega

theorem encWs_autoFilter (s : SheetData) (h : s.column_widths ≠ []) :
    (encWs s).autoFilterRef =
      some (2, 1, 2 + s.data.length, s.column_widths.length) := by
  show some (2, 1, (stage4 s).maxRow, (s.column_widths.map Prod.fst).length) =
    some (2, 1, 2 + s.data.length, s.column_widths.length)
  have := encWs_maxRow_eq s h
  rw [encWs_maxRow] at this
  rw [this]
  simp

/-! ## Auxiliary dictionary lemmas -/

theorem lookupWidthD_of_nodup (cols : List (String × Rat)) (i : Nat)
    (p : String × Rat) (hnd : (cols.map Prod.fst).Nodup)
    (hi : cols[i]? = some p) : lookupWidthD cols p.1 = p.2 := by
  induction cols generalizing i with
  | nil => simp at hi
  | cons q rest ih =>
      simp only [List.map_cons, List.nodup_cons] at hnd
      cases i with
      | zero =>
          simp at hi
          subst hi
          simp [lookupWidthD, List.find?]
      | succ j =>
          simp at hi
          have hmem : p ∈ rest := List.getElem?_mem hi
          have hne : (q.1 == p.1) = false := by
            rw [beq_eq_false_iff_ne]
            intro hc
            exact hnd.1 (hc ▸ List.mem_map_of_mem Prod.fst hmem)
          rw [lookupWidthD, List.find?]
          simp only [hne]
          exact ih j hnd.2 hi

theorem pyGet_isSome (rec : List (String × Option Value)) (k : String)
    (d : Option Value) (hall : ∀ p ∈ rec, p.2.isSome = true)
    (hd : d.isSome = true) : (pyGet rec k d).isSome = true := by
  rw [pyGet]
  cases hfind : rec.find? (fun p => p.1 == k) with
  | none => exact hd
  | some p => exact hall p (List.mem_of_find?_eq_some hfind)

theorem pyGet_eq_of_mem (rec : List (String × Option Value)) (k : String)
    (d d' : Option Value) (h : k ∈ rec.map Prod.fst) :
    pyGet rec k d = pyGet rec k d' := by
  induction rec with
  | nil => simp at h
  | cons p rest ih =>
      rw [pyGet, pyGet, List.find?]
      cases hb : (p.1 == k) with
      | true => simp
      | false =>
          simp only [Bool.false_eq_true]
          have hk : k ∈ rest.map Prod.fst := by
            simp at h
            rcases h with h | h
            · exact absurd h.symm (by simpa using hb)
            · simpa using h
          have := ih hk
          rw [pyGet, pyGet] at this
          exact this

theorem value_str_injective : Function.Injective Value.str := by
  intro a b hab
  cases hab
  rfl

/-! ## Decoding the encoded worksheet -/

theorem encWs_headers (s : SheetData) (hne : s.column_widths ≠ []) :
    sheetHeaders (encWs s) = s.column_widths.map (fun p => Value.str p.1) := by
  have hn : 0 < s.column_widths.length := List.length_pos.mpr hne
  have hlast : s.column_widths[s.column_widths.length - 1]? =
      some s.column_widths[s.column_widths.length - 1] :=
    List.getElem?_eq_getElem (by omega)
  have hmaxcol : s.column_widths.length ≤ (encWs s).maxCol := by
    have hsome := encWs_header_at s (s.column_widths.length - 1) _ hlast
    have := le_maxCol_of_isSome (encWs s) 2 (1 + (s.column_widths.length - 1))
      (by rw [hsome]; rfl)
    omega
  have hspec := scanHeadersAux_spec (encWs s) (s.column_widths.length + 1)
    ((encWs s).maxCol + 1) 1 (by omega) (by omega)
    (by
      intro c hc1 hc2
      have hc : s.column_widths[c - 1]? = some s.column_widths[c - 1] :=
        List.getElem?_eq_getElem (by omega)
      have := encWs_header_at s (c - 1) _ hc
      have hceq : 1 + (c - 1) = c := by omega
      rw [hceq] at this
      rw [this]
      rfl)
    (encWs_header_gap s (s.column_widths.length + 1) (by omega))
  obtain ⟨hlen, hget⟩ := hspec
  apply List.ext_getElem?
  intro i
  by_cases hi : i < s.column_widths.length
  · have hci : s.column_widths[i]? = some s.column_widths[i] :=
      List.getElem?_eq_getElem hi
    rw [sheetHeaders] at *
    rw [hget i (by omega), encWs_header_at s i _ hci,
      List.getElem?_map _ _ i, hci]
    rfl
  · rw [sheetHeaders] at *
    rw [List.getElem?_eq_none (by omega : (scanHeadersAux (encWs s)
        ((encWs s).maxCol + 1) 1).length ≤ i),
      List.getElem?_eq_none (by simp; omega)]

theorem encWs_headers_nodup (s : SheetData)
    (hnd : (s.column_widths.map Prod.fst).Nodup) :
    (s.column_widths.map (fun p => Value.str p.1)).Nodup := by
  have : s.column_widths.map (fun p => Value.str p.1) =
      (s.column_widths.map Prod.fst).map Value.str := by
    rw [List.map_map]
    rfl
  rw [this]
  exact hnd.map value_str_injective

theorem encWs_widths (s : SheetData) (hne : s.column_widths ≠ [])
    (hnd : (s.column_widths.map Prod.fst).Nodup)
    (hpos : ∀ p ∈ s.column_widths, 0 < p.2) :
    sheetWidths (encWs s) (sheetHeaders (encWs s)) =
      s.column_widths.map (fun p => (Value.str p.1, p.2)) := by
  rw [encWs_headers s hne, sheetWidths,
    dictFoldIdx_nodup_eq _ _ _ _ (encWs_headers_nodup s hnd) (by simp),
    List.nil_append]
  apply List.ext_getElem?
  intro i
  by_cases hi : i < s.column_widths.length
  · have hci : s.column_widths[i]? = some s.column_widths[i] :=
      List.getElem?_eq_getElem hi
    have hhi : (s.column_widths.map (fun p => Value.str p.1))[i]? =
        some (Value.str s.column_widths[i].1) := by
      rw [List.getElem?_map _ _ i, hci]
      rfl
    rw [specListIdx_getElem? _ _ _ _ _ hhi,
      List.getElem?_map _ _ i, hci]
    have hw := encWs_width_at s i _ hci
    have hlk := lookupWidthD_of_nodup s.column_widths i _ hnd hci
    have hposi : 0 < s.column_widths[i].2 :=
      hpos _ (List.getElem?_mem hci)
    rw [hw, hlk]
    simp only [pyWidthOrDefault, Option.map_some']
    rw [if_neg (by
      simp only [beq_iff_eq]
      exact hposi.ne')]
  · rw [List.getElem?_eq_none
        (by rw [specListIdx_length, List.length_map]; omega),
      List.getElem?_eq_none (by rw [List.length_map]; omega)]

theorem encWs_title_decoded (s : SheetData) :
    pyOrElse ((encWs s).getCell 1 1) (Value.str "") = Value.str s.title := by
  rw [encWs_titleCell]
  by_cases ht : s.title = ""
  · simp [pyOrElse, truthyV, ht]
  · simp [pyOrElse, truthyV, ht]

theorem encWs_data (s : SheetData) (hwf : sheetWF s) :
    scanDataAux (encWs s) (sheetHeaders (encWs s)) ((encWs s).maxRow + 1) 3 =
      s.data.map (fun rec => s.column_widths.map (fun p =>
        (Value.str p.1, recLookup rec p.1))) := by
  obtain ⟨hne, hnd, hpos, hrecs⟩ := hwf
  have hn : 0 < s.column_widths.length := List.length_pos.mpr hne
  have hspec := scanDataAux_spec (encWs s) (sheetHeaders (encWs s))
    (3 + s.data.length) ((encWs s).maxRow + 1) 3 (by omega)
    (by rw [encWs_maxRow_eq s hne]; omega)
    (by
      intro r hr1 hr2
      have hdr : s.data[r - 3]? = some s.data[r - 3] :=
        List.getElem?_eq_getElem (by omega)
      have hh0 : (s.column_widths.map Prod.fst)[0]? =
          some s.column_widths[0].1 := by
        rw [List.getElem?_map _ _ 0, List.getElem?_eq_getElem hn]
        rfl
      have hcell := encWs_data_at s (r - 3) _ hdr 0 _ hh0
      have hreq : 3 + (r - 3) = r := by omega
      rw [hreq] at hcell
      rw [show (1 : Nat) + 0 = 1 by rfl] at hcell
      rw [hcell]
      exact pyGet_isSome _ _ _
        (fun p hp => (hrecs _ (List.getElem?_mem hdr)).2.2.2 p hp) rfl)
    (encWs_data_gap s (3 + s.data.length) (le_refl _))
  obtain ⟨hlen, hget⟩ := hspec
  apply List.ext_getElem?
  intro r
  by_cases hr : r < s.data.length
  · have hdr : s.data[r]? = some s.data[r] :=
      List.getElem?_eq_getElem hr
    rw [hget r (by omega), List.getElem?_map _ _ r, hdr]
    simp only [Option.map_some', Option.some.injEq]
    rw [buildRecord, encWs_headers s hne,
      dictFoldIdx_nodup_eq _ _ _ _ (encWs_headers_nodup s hnd) (by simp),
      List.nil_append]
    apply List.ext_getElem?
    intro i
    by_cases hi : i < s.column_widths.length
    · have hci : s.column_widths[i]? = some s.column_widths[i] :=
        List.getElem?_eq_getElem hi
      have hhi : (s.column_widths.map (fun p => Value.str p.1))[i]? =
          some (Value.str s.column_widths[i].1) := by
        rw [List.getElem?_map _ _ i, hci]
        rfl
      have hmi : (s.column_widths.map Prod.fst)[i]? =
          some s.column_widths[i].1 := by
        rw [List.getElem?_map _ _ i, hci]
        rfl
      rw [specListIdx_getElem? _ _ _ _ _ hhi,
        List.getElem?_map _ _ i, hci]
      have hcell := encWs_data_at s r _ hdr i _ hmi
      rw [hcell]
      simp only [Option.map_some', Option.some.injEq]
      have hkey : s.column_widths[i].1 ∈ s.data[r].map Prod.fst := by
        have hrec := hrecs _ (List.getElem?_mem hdr)
        exact hrec.2.2.1 _
          (List.mem_map_of_mem Prod.fst (List.getElem?_mem hci))
      rw [pyGet_eq_of_mem _ _ (some (Value.str "")) none hkey, recLookup]
    · rw [List.getElem?_eq_none
          (by rw [specListIdx_length, List.length_map]; omega),
        List.getElem?_eq_none (by rw [List.length_map]; omega)]
  · rw [List.getElem?_eq_none (by omega),
      List.getElem?_eq_none (by rw [List.length_map]; omega)]

theorem sheetToJson_encWs (s : SheetData) (hwf : sheetWF s) :
    sheetToJson (encWs s) = jsonOfSheet s := by
  obtain ⟨hne, hnd, hpos, hrecs⟩ := hwf
  rw [sheetToJson, jsonOfSheet]
  rw [encWs_name s, encWs_title_decoded s,
    encWs_widths s hne hnd hpos,
    encWs_data s ⟨hne, hnd, hpos, hrecs⟩]

theorem encodeSheets_ok_of (hojas : List SheetData)
    (h : ∀ s ∈ hojas, s.column_widths ≠ []) :
    encodeSheets hojas = Except.ok (hojas.map encWs) := by
  induction hojas with
  | nil => rfl
  | cons s rest ih =>
      rw [encodeSheets, encodeSheet_ok s (h s (by simp)),
        ih (fun s' hs' => h s' (by simp [hs']))]
      rfl

theorem crear_excel_wf (hojas : List SheetData) (hwf : wellFormed hojas) :
    crear_excel hojas = Except.ok (hojas.map encWs) := by
  obtain ⟨hne, hall⟩ := hwf
  rw [crear_excel, crearExcelTry, if_neg (by simpa using hne),
    encodeSheets_ok_of hojas (fun s hs => (hall s hs).1)]

theorem excel_a_json_xlsx (wb : List Worksheet) (fn : String)
    (hfn : (pyEndsWith fn ".xlsx" || pyEndsWith fn ".xlsm") = true) :
    excel_a_json ⟨fn, wb⟩ = Except.ok (wb.map sheetToJson) := by
  rw [excel_a_json]
  simp only [hfn, Bool.not_true, Bool.false_eq_true, if_false]

theorem sheetToJson_data (ws : Worksheet) :
    (sheetToJson ws).data =
      scanDataAux ws (sheetHeaders ws) (ws.maxRow + 1) 3 := rfl

theorem sheetToJson_widths (ws : Worksheet) :
    (sheetToJson ws).column_widths =
      sheetWidths ws (sheetHeaders ws) := rfl

theorem encodeSheets_emptyCols_error (hojas : List SheetData)
    (s : SheetData) (hs : s ∈ hojas) (hempty : s.column_widths = []) :
    encodeSheets hojas =
      Except.error (PyExc.valueError invalidRangeMsg) := by
  induction hojas with
  | nil => cases hs
  | cons s0 rest ih =>
      by_cases h0 : s0.column_widths = []
      · rw [encodeSheets, encodeSheet_emptyCols s0 h0]
      · have hs' : s ∈ rest := by
          rcases List.mem_cons.mp hs with h | h
          · exact absurd (h ▸ hempty) h0
          · exact h
        rw [encodeSheets, encodeSheet_ok s0 h0, ih hs']

theorem mem_scanDataAux (ws : Worksheet) (hs : List Value) (fuel start : Nat)
    (rec : List (Value × Option Value))
    (h : rec ∈ scanDataAux ws hs fuel start) :
    ∃ row, rec = buildRecord ws hs row := by
  induction fuel generalizing start with
  | zero => cases h
  | succ fuel ih =>
      rw [scanDataAux] at h
      cases hcell : ws.getCell start 1 with
      | none => rw [hcell] at h; cases h
      | some v =>
          rw [hcell] at h
          rcases List.mem_cons.mp h with h | h
          · exact ⟨start, h⟩
          · exact ih (start + 1) h

theorem excel_a_json_ok_inv (file : UploadFile) (res : List DecodedSheet)
    (hres : excel_a_json file = Except.ok res) :
    res = file.workbook.map sheetToJson := by
  cases hcond : (pyEndsWith file.filename ".xlsx" ||
      pyEndsWith file.filename ".xlsm") with
  | false =>
      rw [excel_a_json] at hres
      simp only [hcond, Bool.not_false, if_true] at hres
      cases hres
  | true =>
      rw [excel_a_json] at hres
      simp only [hcond, Bool.not_true, Bool.false_eq_true, if_false] at hres
      exact (Except.ok.injEq _ _ |>.mp hres).symm

/-! ## The claims -/

/-- Claim C1 (round-trip identity): for every well-formed descriptor list
(non-empty; each sheet with non-empty columns, distinct labels and
positive widths; each record total over the labels with non-null,
format-preserving scalar values), encoding succeeds and decoding the
produced workbook yields the input back: sheet order and names, column
order, labels and widths, titles, and row values (each decoded record
maps each label, in column order, to the input record's own value). -/
theorem round_trip_encode_decode (hojas : List SheetData)
    (hwf : wellFormed hojas) :
    ∃ sheets, crear_excel hojas = Except.ok sheets ∧
      excel_a_json ⟨"archivo_multisheets.xlsx", sheets⟩ =
        Except.ok (hojas.map jsonOfSheet) := by
  refine ⟨hojas.map encWs, crear_excel_wf hojas hwf, ?_⟩
  rw [excel_a_json_xlsx _ _ (by decide), List.map_map]
  exact congrArg Except.ok
    (List.map_congr_left (fun s hs => sheetToJson_encWs s (hwf.2 s hs)))

/-- Witness for C1: the spec's concrete scenario (sheet `Reporte1`) is
well-formed and round-trips. -/
theorem round_trip_encode_decode_witness :
    wellFormed [demoSheet] ∧
      ∃ sheets, crear_excel [demoSheet] = Except.ok sheets ∧
        excel_a_json ⟨"archivo_multisheets.xlsx", sheets⟩ =
          Except.ok ([demoSheet].map jsonOfSheet) :=
  ⟨by decide, round_trip_encode_decode [demoSheet] (by decide)⟩

/-- Claim C2 (code bug evidence): encoding an empty sheet list does fail
and produces no workbook, but the `HTTPException(400)` raised by the
endpoint's own empty-input check is caught by its blanket
`except Exception` and re-raised as a *500* server error, not the
client-error response the spec requires. -/
theorem empty_sheets_encode_returns_500 :
    crear_excel [] =
      Except.error
        (ErrResp.mk 500 "400: La lista de hojas está vacía.") ∧
      (500 : Nat) ≠ 400 :=
  ⟨rfl, by decide⟩

/-- Counterexample for C3: encoding a sheet with an empty columns mapping
does not produce a validation-shaped `EmptyColumnsError` client error —
the response is a 500 server error carrying the spreadsheet library's
range error, so the claim as stated is false. -/
theorem empty_columns_encode_not_client_error :
    crear_excel [emptyColsSheet] =
      Except.error (ErrResp.mk 500 invalidRangeMsg) ∧
      (500 : Nat) ≠ 400 :=
  ⟨rfl, by decide⟩

/-- Claim C3 as amended: if any sheet descriptor of the request has an
empty columns mapping, the encode operation fails (the zero-column title
merge raises a library error that the handler surfaces as a generic 500)
and no workbook is produced. -/
theorem empty_columns_encode_fails_500 (hojas : List SheetData)
    (s : SheetData) (hs : s ∈ hojas) (hempty : s.column_widths = []) :
    ∃ msg, crear_excel hojas = Except.error (ErrResp.mk 500 msg) := by
  refine ⟨invalidRangeMsg, ?_⟩
  have hne : hojas ≠ [] := by
    intro hc
    rw [hc] at hs
    cases hs
  rw [crear_excel, crearExcelTry, if_neg (by simpa using hne),
    encodeSheets_emptyCols_error hojas s hs hempty]
  rfl

/-- Witness for the amended C3. -/
theorem empty_columns_encode_fails_500_witness :
    emptyColsSheet ∈ [emptyColsSheet] ∧
      emptyColsSheet.column_widths = [] ∧
      ∃ msg, crear_excel [emptyColsSheet] =
        Except.error (ErrResp.mk 500 msg) :=
  ⟨by decide, rfl,
    empty_columns_encode_fails_500 [emptyColsSheet] emptyColsSheet
      (by simp) rfl⟩

/-- Claim C4 (header sentinel-stop): if the columns `1..k-1` of row 2 are
populated and column `k` is null, then the decoded header list consists of
exactly the `k-1` values before the gap, in order — whatever lies beyond
column `k`. -/
theorem header_scan_sentinel_stop (ws : Worksheet) (k : Nat) (hk : 1 ≤ k)
    (hbefore : ∀ c, c < k → 1 ≤ c → (ws.getCell 2 c).isSome = true)
    (hgap : ws.getCell 2 k = none) :
    (sheetHeaders ws).length = k - 1 ∧
      ∀ i, i < k - 1 → (sheetHeaders ws)[i]? = ws.getCell 2 (1 + i) := by
  have hkbound : k < 1 + (ws.maxCol + 1) := by
    by_cases h1 : k = 1
    · omega
    · have := le_maxCol_of_isSome ws 2 (k - 1)
        (hbefore (k - 1) (by omega) (by omega))
      omega
  obtain ⟨hlen, hget⟩ := scanHeadersAux_spec ws k (ws.maxCol + 1) 1
    (by omega) hkbound (fun c hc1 hc2 => hbefore c hc2 hc1) hgap
  exact ⟨hlen, hget⟩

/-- Witness for C4: a header row `A`, gap, `C` decodes to the single
label before the gap; the populated cell beyond the gap is dropped. -/
theorem header_scan_sentinel_stop_witness :
    (1 ≤ 2 ∧ (∀ c, c < 2 → 1 ≤ c →
        (wsHeaderGap.getCell 2 c).isSome = true) ∧
      wsHeaderGap.getCell 2 2 = none ∧
      wsHeaderGap.getCell 2 3 = some (Value.str "C")) ∧
    ((sheetHeaders wsHeaderGap).length = 2 - 1 ∧
      ∀ i, i < 2 - 1 →
        (sheetHeaders wsHeaderGap)[i]? = wsHeaderGap.getCell 2 (1 + i)) :=
  ⟨⟨by decide, by decide, rfl, rfl⟩,
    header_scan_sentinel_stop wsHeaderGap 2 (by decide) (by decide) rfl⟩

/-- Claim C5 (data sentinel-stop): if rows `3..3+j-1` have a populated
column-1 cell and row `3+j`'s column-1 cell is null, the decoded data
consists of exactly the `j` records before that row (later rows are
dropped), and — when the decoded headers are distinct — each record maps
the header at position `i` to the cell value at that row and column
`i+1`. -/
theorem data_scan_sentinel_stop (ws : Worksheet) (j : Nat)
    (hbefore : ∀ r, r < j → (ws.getCell (3 + r) 1).isSome = true)
    (hgap : ws.getCell (3 + j) 1 = none) :
    (sheetToJson ws).data.length = j ∧
      (∀ r, r < j → (sheetToJson ws).data[r]? =
        some (buildRecord ws (sheetHeaders ws) (3 + r))) ∧
      (∀ r, r < j → (sheetHeaders ws).Nodup → ∀ i hd,
        (sheetHeaders ws)[i]? = some hd →
        (buildRecord ws (sheetHeaders ws) (3 + r)).find?
          (fun p => p.1 == hd) = some (hd, ws.getCell (3 + r) (1 + i))) := by
  have hjbound : 3 + j < 3 + (ws.maxRow + 1) := by
    by_cases h0 : j = 0
    · omega
    · have := le_maxRow_of_isSome ws (3 + (j - 1)) 1
        (hbefore (j - 1) (by omega))
      omega
  obtain ⟨hlen, hget⟩ := scanDataAux_spec ws (sheetHeaders ws) (3 + j)
    (ws.maxRow + 1) 3 (by omega) hjbound
    (fun r hr1 hr2 => by
      have := hbefore (r - 3) (by omega)
      have hreq : 3 + (r - 3) = r := by omega
      rw [hreq] at this
      exact this)
    hgap
  refine ⟨by rw [sheetToJson_data, hlen]; omega, ?_, ?_⟩
  · intro r hr
    rw [sheetToJson_data]
    exact hget r (by omega)
  · intro r hr hnd i hd hi
    rw [buildRecord,
      dictFoldIdx_nodup_eq _ _ _ _ hnd (by simp), List.nil_append]
    exact specListIdx_find? _ _ 1 i hd hnd hi

/-- Witness for C5: a data region with row 3 populated, row 4's first
cell empty and row 5 populated decodes to the single record of row 3. -/
theorem data_scan_sentinel_stop_witness :
    ((∀ r, r < 1 → (wsDataGap.getCell (3 + r) 1).isSome = true) ∧
      wsDataGap.getCell 4 1 = none ∧
      wsDataGap.getCell 5 1 = some (Value.num 9)) ∧
    ((sheetToJson wsDataGap).data.length = 1 ∧
      (∀ r, r < 1 → (sheetToJson wsDataGap).data[r]? =
        some (buildRecord wsDataGap (sheetHeaders wsDataGap) (3 + r))) ∧
      (∀ r, r < 1 → (sheetHeaders wsDataGap).Nodup → ∀ i hd,
        (sheetHeaders wsDataGap)[i]? = some hd →
        (buildRecord wsDataGap (sheetHeaders wsDataGap) (3 + r)).find?
          (fun p => p.1 == hd) =
          some (hd, wsDataGap.getCell (3 + r) (1 + i)))) :=
  ⟨⟨by decide, rfl, rfl⟩,
    data_scan_sentinel_stop wsDataGap 1 (by decide) rfl⟩

/-- Claim C6 (code bug evidence): decoding a file whose name ends in
neither `.xlsx` nor `.xlsm` does reject the request before touching the
workbook, but the endpoint's own `HTTPException(400)` is caught by its
blanket `except Exception` and re-raised as a *500* server error, not the
client-error response the spec requires. -/
theorem bad_extension_decode_returns_500 :
    excel_a_json ⟨"datos.csv", []⟩ =
      Except.error
        (ErrResp.mk 500 "400: El archivo proporcionado no es un Excel válido.") ∧
      (500 : Nat) ≠ 400 :=
  ⟨rfl, by decide⟩

/-- Claim C7 (auto-filter range): encoding a sheet with `N ≥ 1` columns
and `k` data rows succeeds and sets the auto-filter to span from row 2,
column 1 to row `2 + k`, column `N` — which is just the header row when
`k = 0`. -/
theorem auto_filter_range_spans_header_to_last (s : SheetData)
    (h : s.column_widths ≠ []) :
    ∃ ws, encodeSheet s = Except.ok ws ∧
      ws.autoFilterRef =
        some (2, 1, 2 + s.data.length, s.column_widths.length) :=
  ⟨encWs s, encodeSheet_ok s h, encWs_autoFilter s h⟩

/-- Witness for C7: the demo sheet (3 columns, 1 data row) gets the
filter range `A2:C3`. -/
theorem auto_filter_range_spans_header_to_last_witness :
    demoSheet.column_widths ≠ [] ∧
      ∃ ws, encodeSheet demoSheet = Except.ok ws ∧
        ws.autoFilterRef = some (2, 1, 3, 3) :=
  ⟨by decide, auto_filter_range_spans_header_to_last demoSheet (by decide)⟩

/-- Counterexample for C8: a column whose width is explicitly configured
as `0` decodes to the default `10.0`, not to its configured width, so the
claim (default exactly when no width was ever set) is false. -/
theorem zero_width_decodes_to_default :
    excel_a_json ⟨"a.xlsx", [wsZeroWidth]⟩ =
      Except.ok [⟨"S", Value.str "", [(Value.str "A", 10)], []⟩] ∧
      wsZeroWidth.getWidth 1 = some 0 ∧
      (10 : Rat) ≠ 0 :=
  ⟨rfl, rfl, by decide⟩

/-- Claim C8 as amended: for the header at position `i` (headers
distinct), the decoded width is the explicitly configured width of column
`i + 1` when that width is set and non-zero, and `10.0` when the width is
unset *or set to a falsy `0`*. -/
theorem decoded_width_default_rule (ws : Worksheet) (i : Nat) (hd : Value)
    (hnd : (sheetHeaders ws).Nodup) (hi : (sheetHeaders ws)[i]? = some hd) :
    (ws.getWidth (1 + i) = none →
      (sheetToJson ws).column_widths.find? (fun p => p.1 == hd) =
        some (hd, 10)) ∧
    (∀ w, ws.getWidth (1 + i) = some w → w ≠ 0 →
      (sheetToJson ws).column_widths.find? (fun p => p.1 == hd) =
        some (hd, w)) ∧
    (ws.getWidth (1 + i) = some 0 →
      (sheetToJson ws).column_widths.find? (fun p => p.1 == hd) =
        some (hd, 10)) := by
  have hcore : (sheetToJson ws).column_widths.find? (fun p => p.1 == hd) =
      some (hd, pyWidthOrDefault (ws.getWidth (1 + i)) 10) := by
    rw [sheetToJson_widths, sheetWidths,
      dictFoldIdx_nodup_eq _ _ _ _ hnd (by simp), List.nil_append]
    exact specListIdx_find? _ _ 1 i hd hnd hi
  refine ⟨?_, ?_, ?_⟩
  · intro hnone
    rw [hcore, hnone]
    rfl
  · intro w hw hwne
    rw [hcore, hw]
    simp only [pyWidthOrDefault]
    rw [if_neg (by simp only [beq_iff_eq]; exact hwne)]
  · intro hzero
    rw [hcore, hzero]
    rfl

/-- Witness for the amended C8: `wsZeroWidth` has header `A` at position
0 with explicit width `0`; the decoded width is the default `10.0`. -/
theorem decoded_width_default_rule_witness :
    (sheetHeaders wsZeroWidth).Nodup ∧
      (sheetHeaders wsZeroWidth)[0]? = some (Value.str "A") ∧
      wsZeroWidth.getWidth 1 = some 0 ∧
      (sheetToJson wsZeroWidth).column_widths.find?
        (fun p => p.1 == Value.str "A") = some (Value.str "A", 10) :=
  ⟨by decide, rfl, rfl,
    (decoded_width_default_rule wsZeroWidth 0 (Value.str "A")
      (by decide) rfl).2.2 rfl⟩

/-- Counterexample for C9: a title cell holding the non-null but falsy
number `0` decodes to the empty string, so the decoded title neither
equals the cell value nor is the empty string only for null/absent
cells. -/
theorem falsy_title_decodes_to_empty :
    excel_a_json ⟨"a.xlsx", [wsZeroTitle]⟩ =
      Except.ok [⟨"S", Value.str "", [], []⟩] ∧
      wsZeroTitle.getCell 1 1 = some (Value.num 0) ∧
      Value.str "" ≠ Value.num 0 :=
  ⟨rfl, rfl, by decide⟩

/-- Claim C9 as amended: the decoded title is the value of cell (1,1)
when that value is truthy, and the empty string when the cell is null,
absent, or holds a falsy value (`""`, `0` or `False`). -/
theorem decoded_title_truthiness_rule (ws : Worksheet) :
    (ws.getCell 1 1 = none → (sheetToJson ws).title = Value.str "") ∧
    (∀ v, ws.getCell 1 1 = some v → truthyV v = true →
      (sheetToJson ws).title = v) ∧
    (∀ v, ws.getCell 1 1 = some v → truthyV v = false →
      (sheetToJson ws).title = Value.str "") := by
  refine ⟨?_, ?_, ?_⟩
  · intro h
    show pyOrElse (ws.getCell 1 1) (Value.str "") = Value.str ""
    rw [h]
    rfl
  · intro v h ht
    show pyOrElse (ws.getCell 1 1) (Value.str "") = v
    rw [h]
    simp [pyOrElse, ht]
  · intro v h ht
    show pyOrElse (ws.getCell 1 1) (Value.str "") = Value.str ""
    rw [h]
    simp [pyOrElse, ht]

/-- Witness for the amended C9: a truthy title cell decodes to itself. -/
theorem decoded_title_truthiness_rule_witness :
    wsSmall.getCell 1 1 = some (Value.str "Hello") ∧
      truthyV (Value.str "Hello") = true ∧
      (sheetToJson wsSmall).title = Value.str "Hello" :=
  ⟨rfl, by decide,
    (decoded_title_truthiness_rule wsSmall).2.1 _ rfl (by decide)⟩

/-- Claim C10 (records total over headers): in every successful decode,
every record of every decoded sheet has exactly the sheet's decoded
column labels as its key set — no key missing, none extra. -/
theorem decoded_records_total_over_headers (file : UploadFile)
    (res : List DecodedSheet) (hres : excel_a_json file = Except.ok res)
    (ds : DecodedSheet) (hds : ds ∈ res)
    (rec : List (Value × Option Value)) (hrec : rec ∈ ds.data) (k : Value) :
    k ∈ rec.map Prod.fst ↔ k ∈ ds.column_widths.map Prod.fst := by
  have hres' := excel_a_json_ok_inv file res hres
  subst hres'
  obtain ⟨ws, hws, hds'⟩ := List.mem_map.mp hds
  subst hds'
  rw [sheetToJson_data] at hrec
  obtain ⟨row, hrow⟩ := mem_scanDataAux _ _ _ _ _ hrec
  subst hrow
  rw [sheetToJson_widths, buildRecord, sheetWidths,
    dictFoldIdx_keys_mem, dictFoldIdx_keys_mem]
  simp

/-- Witness for C10: decoding a one-sheet workbook with one header and
one data row, the record's keys coincide with the decoded labels. -/
theorem decoded_records_total_over_headers_witness :
    excel_a_json ⟨"a.xlsx", [wsSmall]⟩ = Except.ok [wsSmallDecoded] ∧
      wsSmallDecoded ∈ [wsSmallDecoded] ∧
      wsSmallRec ∈ wsSmallDecoded.data ∧
      (Value.str "A" ∈ wsSmallRec.map Prod.fst ↔
        Value.str "A" ∈ wsSmallDecoded.column_widths.map Prod.fst) :=
  ⟨rfl, by decide, by decide,
    decoded_records_total_over_headers ⟨"a.xlsx", [wsSmall]⟩
      [wsSmallDecoded] rfl wsSmallDecoded (by decide) wsSmallRec
      (by decide) (Value.str "A")⟩
